import Mathlib

/-!
Verification of the esl library (a FreeSWITCH event-socket client) against its
natural-language specification.  The byte stream of the connection is modelled
as a `List Char` (one `Char` per byte), fallible operations return explicit
result types, and Go runtime panics are a distinguished outcome.  The model
follows the source files `command.go` and the connection file verbatim; the
standard-library pieces the source calls (net/textproto header reading,
strconv.Atoi, net/url.QueryUnescape, strings helpers) are embedded from their
documented behaviour at the time the repository was written.
-/

namespace Esl

/-- Go strings.HasPrefix: listStarts p s is true when p is an initial segment of s. -/
def listStarts : List Char → List Char → Bool
  | [], _ => true
  | _ :: _, [] => false
  | p :: ps, c :: cs => p = c && listStarts ps cs

/-- Go strings.HasPrefix on strings. -/
def strStarts (s pre : String) : Bool := listStarts pre.toList s.toList

/-- Go strings.Contains: does s contain pat as a contiguous substring. -/
def listContains (pat : List Char) : List Char → Bool
  | [] => listStarts pat []
  | c :: cs => listStarts pat (c :: cs) || listContains pat cs

/-- Go strings.Contains on strings. -/
def strContains (s pat : String) : Bool := listContains pat.toList s.toList

/-- Whitespace recognized by Go strings.TrimSpace (the Latin-1 range of unicode.IsSpace). -/
def isGoSpace (c : Char) : Bool :=
  c = ' ' || c = '\t' || c = '\n' || c = Char.ofNat 11 || c = Char.ofNat 12 ||
  c = '\r' || c = Char.ofNat 0x85 || c = Char.ofNat 0xA0

/-- Go strings.TrimSpace on a character list. -/
def trimSpaceList (l : List Char) : List Char :=
  ((l.dropWhile isGoSpace).reverse.dropWhile isGoSpace).reverse

/-- Go strings.TrimSpace. -/
def trimSpace (s : String) : String := String.mk (trimSpaceList s.toList)

/-- Space or tab, the characters trimmed by net/textproto around header lines. -/
def isST (c : Char) : Bool := c = ' ' || c = '\t'

/-- net/textproto trim: strip leading and trailing space/tab from a line. -/
def trimST (l : List Char) : List Char :=
  ((l.dropWhile isST).reverse.dropWhile isST).reverse

/-- Decimal digit value accumulator for strconv.Atoi: none on an empty or
non-digit input, otherwise the base-10 value. -/
def digitsVal (l : List Char) : Option Nat :=
  if l = [] then none
  else l.foldl
    (fun acc c =>
      match acc with
      | none => none
      | some v => if '0' ≤ c ∧ c ≤ '9' then some (v * 10 + (c.toNat - 48)) else none)
    (some 0)

/-- Go strconv.Atoi on a 64-bit platform: an optional sign, then one or more
decimal digits; anything else is a syntax error and a value outside the int64
range is a range error.  Both error cases are collapsed to none because every
caller in the source only branches on err being non-nil. -/
def Atoi (s : String) : Option Int :=
  let l := s.toList
  let p : Bool × List Char :=
    match l with
    | '+' :: rest => (false, rest)
    | '-' :: rest => (true, rest)
    | _ => (false, l)
  match digitsVal p.2 with
  | none => none
  | some v =>
    let iv : Int := if p.1 then -(v : Int) else (v : Int)
    if iv < -(2 ^ 63) ∨ iv > 2 ^ 63 - 1 then none else some iv

/-- Hexadecimal digit value, as accepted by net/url unescaping. -/
def hexVal (c : Char) : Option Nat :=
  if '0' ≤ c ∧ c ≤ '9' then some (c.toNat - 48)
  else if 'a' ≤ c ∧ c ≤ 'f' then some (c.toNat - 87)
  else if 'A' ≤ c ∧ c ≤ 'F' then some (c.toNat - 55)
  else none

/-- Go net/url.QueryUnescape on a character list: percent escapes become the
named byte, plus becomes space, and a malformed escape is an error (none). -/
def unescapeList : List Char → Option (List Char)
  | [] => some []
  | '%' :: a :: b :: rest =>
    match hexVal a, hexVal b with
    | some x, some y => (unescapeList rest).map (fun t => Char.ofNat (x * 16 + y) :: t)
    | _, _ => none
  | '%' :: _ => none
  | '+' :: rest => (unescapeList rest).map (fun t => ' ' :: t)
  | c :: rest => (unescapeList rest).map (fun t => c :: t)

/-- Go net/url.QueryUnescape. -/
def QueryUnescape (s : String) : Option String := (unescapeList s.toList).map String.mk

/-- Token bytes allowed in a canonical MIME header key (net/textproto isTokenTable). -/
def validHeaderFieldByte (c : Char) : Bool :=
  ('0' ≤ c && c ≤ '9') || ('a' ≤ c && c ≤ 'z') || ('A' ≤ c && c ≤ 'Z') ||
  c = '!' || c = '#' || c = '$' || c = '%' || c = '&' || c = Char.ofNat 39 ||
  c = '*' || c = '+' || c = '-' || c = '.' || c = '^' || c = '_' ||
  c = Char.ofNat 96 || c = '|' || c = '~'

/-- Case mapping pass of net/textproto canonicalMIMEHeaderKey: uppercase the
first letter and every letter following a hyphen, lowercase the rest. -/
def canonChars (upper : Bool) : List Char → List Char
  | [] => []
  | c :: cs =>
    let c' :=
      if upper && 'a' ≤ c && c ≤ 'z' then Char.ofNat (c.toNat - 32)
      else if !upper && 'A' ≤ c && c ≤ 'Z' then Char.ofNat (c.toNat + 32)
      else c
    c' :: canonChars (c = '-') cs

/-- net/textproto CanonicalMIMEHeaderKey: keys holding a byte that is not a
valid token byte are returned unchanged, otherwise canonical case is applied. -/
def canonicalMIMEHeaderKey (s : String) : String :=
  if s.toList.all validHeaderFieldByte then String.mk (canonChars true s.toList) else s

/-- The MIME header map: association list from canonical key to the values in
arrival order, as built by textproto ReadMIMEHeader. -/
abbrev HeaderMap := List (String × List String)

/-- m[key] = append(m[key], value) on the association-list header map. -/
def addHeader (m : HeaderMap) (key v : String) : HeaderMap :=
  match m with
  | [] => [(key, [v])]
  | (k, vs) :: rest => if k = key then (k, vs ++ [v]) :: rest else (k, vs) :: addHeader rest key v

/-- textproto MIMEHeader.Get: canonicalize the key and return the first value,
or the empty string when the key is missing. -/
def headerMapGet (m : HeaderMap) (key : String) : String :=
  match m.lookup (canonicalMIMEHeaderKey key) with
  | some (v :: _) => v
  | _ => ""

/-- Split the stream at the first newline: (bytes before it, some rest) when a
newline exists, (whole stream, none) otherwise. -/
def breakNL : List Char → List Char × Option (List Char)
  | [] => ([], none)
  | c :: cs =>
    if c = '\n' then ([], some cs)
    else
      let (a, r) := breakNL cs
      (c :: a, r)

/-- Drop one trailing carriage return, as bufio ReadLine does after stripping
the newline. -/
def dropTrailCR (l : List Char) : List Char :=
  match l.reverse with
  | '\r' :: rest => rest.reverse
  | _ => l

/-- bufio/textproto readLineSlice over the modelled stream: none at end of
stream, otherwise one line (with the line ending removed; a final line without
a newline is returned as-is) and the rest of the stream. -/
def readLine : List Char → Option (List Char × List Char)
  | [] => none
  | c :: cs =>
    match breakNL (c :: cs) with
    | (l, some r) => some (dropTrailCR l, r)
    | (l, none) => some (l, [])

/-- textproto skipSpace: consume leading spaces and tabs, returning how many
were consumed and the rest of the stream. -/
def skipSpace : List Char → Nat × List Char
  | [] => (0, [])
  | c :: cs =>
    if c = ' ' || c = '\t' then
      let (n, r) := skipSpace cs
      (n + 1, r)
    else (0, c :: cs)

/-- The continuation-line loop of textproto readContinuedLineSlice: while the
stream continues with space or tab, consume the spaces, read the next line and
append a single space plus the trimmed line.  The fuel is instantiated with the
length of the stream by the caller; an iteration always consumes at least two
bytes, and when the fuel is zero the stream is empty, where returning the
accumulator agrees with the loop exit. -/
def contLoop : Nat → List Char → List Char → List Char × List Char
  | 0, acc, s => (acc, s)
  | fuel + 1, acc, s =>
    let (n, s1) := skipSpace s
    if n = 0 then (acc, s)
    else
      match readLine s1 with
      | none => (acc, s1)
      | some (l, r) => contLoop fuel (acc ++ ' ' :: trimST l) r

/-- textproto readContinuedLineSlice: none at end of stream; an empty line is
returned as-is (blank line, no continuation); otherwise the trimmed line with
its continuation lines folded in. -/
def readContinuedLine (s : List Char) : Option (List Char × List Char) :=
  match readLine s with
  | none => none
  | some (l, r) => if l = [] then some ([], r) else some (contLoop r.length (trimST l) r)

/-- Split a header line at the first colon: (key bytes, value bytes) or none
when the line holds no colon. -/
def breakColon : List Char → Option (List Char × List Char)
  | [] => none
  | c :: cs =>
    if c = ':' then some ([], cs)
    else
      match breakColon cs with
      | none => none
      | some (a, b) => some (c :: a, b)

/-- The errors of the embedded program.  Each constructor corresponds to one
error construction site of the source (or of a standard-library call it
makes); fuelOut is a modelling artifact proven unreachable for the exported
entry points. -/
inductive GoError
  | eof
  | malformedHeaderLine (line : String)
  | fuelOut
  | parseHeaders (inner : GoError)
  | convertContentLength (slen : String)
  | readBody
  | commandError (reply : String)
  | unsupportedFormat (ct : String)
  | parseTextBodyErr (inner : GoError)
  | atoiFail (s : String)
  | eventReadLoop (inner : GoError)
  | disconnected
  | sendRecvErr (cmd : String) (args : List String) (reply : String)
  | apiErr (cmd : String) (args : List String) (resp : String)
deriving DecidableEq, Repr

/-- The loop of textproto ReadMIMEHeader: read continued lines until a blank
line (success), end of stream (io.EOF) or a line without a colon (protocol
error); each header line adds its canonical key and space-skipped value to the
map.  Returns the (possibly partial) map, the error if any, and the rest of
the stream.  Fuel is instantiated with length + 1 by readMIMEHeader and proven
sufficient below. -/
def readMIMEHeaderAux : Nat → HeaderMap → List Char → HeaderMap × Option GoError × List Char
  | 0, m, s => (m, some .fuelOut, s)
  | fuel + 1, m, s =>
    match readContinuedLine s with
    | none => (m, some .eof, s)
    | some ([], rest) => (m, none, rest)
    | some (kv, rest) =>
      match breakColon kv with
      | none => (m, some (.malformedHeaderLine (String.mk kv)), rest)
      | some (k, v) =>
        readMIMEHeaderAux fuel
          (addHeader m (canonicalMIMEHeaderKey (String.mk k)) (String.mk (v.dropWhile isST)))
          rest

/-- textproto NewReader(r).ReadMIMEHeader() over the modelled stream. -/
def readMIMEHeader (s : List Char) : HeaderMap × Option GoError × List Char :=
  readMIMEHeaderAux (s.length + 1) [] s

set_option maxHeartbeats 1600000
set_option maxRecDepth 100000

/-- The EventName enumeration of the source, one tag per notification name. -/
inductive EventName
  | CUSTOM
  | CLONE
  | CHANNEL_CREATE
  | CHANNEL_DESTROY
  | CHANNEL_STATE
  | CHANNEL_CALLSTATE
  | CHANNEL_ANSWER
  | CHANNEL_HANGUP
  | CHANNEL_HANGUP_COMPLETE
  | CHANNEL_EXECUTE
  | CHANNEL_EXECUTE_COMPLETE
  | CHANNEL_HOLD
  | CHANNEL_UNHOLD
  | CHANNEL_BRIDGE
  | CHANNEL_UNBRIDGE
  | CHANNEL_PROGRESS
  | CHANNEL_PROGRESS_MEDIA
  | CHANNEL_OUTGOING
  | CHANNEL_PARK
  | CHANNEL_UNPARK
  | CHANNEL_APPLICATION
  | CHANNEL_ORIGINATE
  | CHANNEL_UUID
  | API
  | LOG
  | INBOUND_CHAN
  | OUTBOUND_CHAN
  | STARTUP
  | SHUTDOWN
  | PUBLISH
  | UNPUBLISH
  | TALK
  | NOTALK
  | SESSION_CRASH
  | MODULE_LOAD
  | MODULE_UNLOAD
  | DTMF
  | MESSAGE
  | PRESENCE_IN
  | NOTIFY_IN
  | PRESENCE_OUT
  | PRESENCE_PROBE
  | MESSAGE_WAITING
  | MESSAGE_QUERY
  | ROSTER
  | CODEC
  | BACKGROUND_JOB
  | DETECTED_SPEECH
  | DETECTED_TONE
  | PRIVATE_COMMAND
  | HEARTBEAT
  | TRAP
  | ADD_SCHEDULE
  | DEL_SCHEDULE
  | EXE_SCHEDULE
  | RE_SCHEDULE
  | RELOADXML
  | NOTIFY
  | PHONE_FEATURE
  | PHONE_FEATURE_SUBSCRIBE
  | SEND_MESSAGE
  | RECV_MESSAGE
  | REQUEST_PARAMS
  | CHANNEL_DATA
  | GENERAL
  | COMMAND
  | SESSION_HEARTBEAT
  | CLIENT_DISCONNECTED
  | SERVER_DISCONNECTED
  | SEND_INFO
  | RECV_INFO
  | RECV_RTCP_MESSAGE
  | CALL_SECURE
  | NAT
  | RECORD_START
  | RECORD_STOP
  | PLAYBACK_START
  | PLAYBACK_STOP
  | CALL_UPDATE
  | FAILURE
  | SOCKET_DATA
  | MEDIA_BUG_START
  | MEDIA_BUG_STOP
  | CONFERENCE_DATA_QUERY
  | CONFERENCE_DATA
  | CALL_SETUP_REQ
  | CALL_SETUP_RESULT
  | CALL_DETAIL
  | DEVICE_STATE
  | ALL
deriving DecidableEq, Repr

/-- The (name string, tag) pairs of the EventName enumeration, in source order. -/
def eventNamePairs : List (String × EventName) :=
  [("CUSTOM", .CUSTOM),
   ("CLONE", .CLONE),
   ("CHANNEL_CREATE", .CHANNEL_CREATE),
   ("CHANNEL_DESTROY", .CHANNEL_DESTROY),
   ("CHANNEL_STATE", .CHANNEL_STATE),
   ("CHANNEL_CALLSTATE", .CHANNEL_CALLSTATE),
   ("CHANNEL_ANSWER", .CHANNEL_ANSWER),
   ("CHANNEL_HANGUP", .CHANNEL_HANGUP),
   ("CHANNEL_HANGUP_COMPLETE", .CHANNEL_HANGUP_COMPLETE),
   ("CHANNEL_EXECUTE", .CHANNEL_EXECUTE),
   ("CHANNEL_EXECUTE_COMPLETE", .CHANNEL_EXECUTE_COMPLETE),
   ("CHANNEL_HOLD", .CHANNEL_HOLD),
   ("CHANNEL_UNHOLD", .CHANNEL_UNHOLD),
   ("CHANNEL_BRIDGE", .CHANNEL_BRIDGE),
   ("CHANNEL_UNBRIDGE", .CHANNEL_UNBRIDGE),
   ("CHANNEL_PROGRESS", .CHANNEL_PROGRESS),
   ("CHANNEL_PROGRESS_MEDIA", .CHANNEL_PROGRESS_MEDIA),
   ("CHANNEL_OUTGOING", .CHANNEL_OUTGOING),
   ("CHANNEL_PARK", .CHANNEL_PARK),
   ("CHANNEL_UNPARK", .CHANNEL_UNPARK),
   ("CHANNEL_APPLICATION", .CHANNEL_APPLICATION),
   ("CHANNEL_ORIGINATE", .CHANNEL_ORIGINATE),
   ("CHANNEL_UUID", .CHANNEL_UUID),
   ("API", .API),
   ("LOG", .LOG),
   ("INBOUND_CHAN", .INBOUND_CHAN),
   ("OUTBOUND_CHAN", .OUTBOUND_CHAN),
   ("STARTUP", .STARTUP),
   ("SHUTDOWN", .SHUTDOWN),
   ("PUBLISH", .PUBLISH),
   ("UNPUBLISH", .UNPUBLISH),
   ("TALK", .TALK),
   ("NOTALK", .NOTALK),
   ("SESSION_CRASH", .SESSION_CRASH),
   ("MODULE_LOAD", .MODULE_LOAD),
   ("MODULE_UNLOAD", .MODULE_UNLOAD),
   ("DTMF", .DTMF),
   ("MESSAGE", .MESSAGE),
   ("PRESENCE_IN", .PRESENCE_IN),
   ("NOTIFY_IN", .NOTIFY_IN),
   ("PRESENCE_OUT", .PRESENCE_OUT),
   ("PRESENCE_PROBE", .PRESENCE_PROBE),
   ("MESSAGE_WAITING", .MESSAGE_WAITING),
   ("MESSAGE_QUERY", .MESSAGE_QUERY),
   ("ROSTER", .ROSTER),
   ("CODEC", .CODEC),
   ("BACKGROUND_JOB", .BACKGROUND_JOB),
   ("DETECTED_SPEECH", .DETECTED_SPEECH),
   ("DETECTED_TONE", .DETECTED_TONE),
   ("PRIVATE_COMMAND", .PRIVATE_COMMAND),
   ("HEARTBEAT", .HEARTBEAT),
   ("TRAP", .TRAP),
   ("ADD_SCHEDULE", .ADD_SCHEDULE),
   ("DEL_SCHEDULE", .DEL_SCHEDULE),
   ("EXE_SCHEDULE", .EXE_SCHEDULE),
   ("RE_SCHEDULE", .RE_SCHEDULE),
   ("RELOADXML", .RELOADXML),
   ("NOTIFY", .NOTIFY),
   ("PHONE_FEATURE", .PHONE_FEATURE),
   ("PHONE_FEATURE_SUBSCRIBE", .PHONE_FEATURE_SUBSCRIBE),
   ("SEND_MESSAGE", .SEND_MESSAGE),
   ("RECV_MESSAGE", .RECV_MESSAGE),
   ("REQUEST_PARAMS", .REQUEST_PARAMS),
   ("CHANNEL_DATA", .CHANNEL_DATA),
   ("GENERAL", .GENERAL),
   ("COMMAND", .COMMAND),
   ("SESSION_HEARTBEAT", .SESSION_HEARTBEAT),
   ("CLIENT_DISCONNECTED", .CLIENT_DISCONNECTED),
   ("SERVER_DISCONNECTED", .SERVER_DISCONNECTED),
   ("SEND_INFO", .SEND_INFO),
   ("RECV_INFO", .RECV_INFO),
   ("RECV_RTCP_MESSAGE", .RECV_RTCP_MESSAGE),
   ("CALL_SECURE", .CALL_SECURE),
   ("NAT", .NAT),
   ("RECORD_START", .RECORD_START),
   ("RECORD_STOP", .RECORD_STOP),
   ("PLAYBACK_START", .PLAYBACK_START),
   ("PLAYBACK_STOP", .PLAYBACK_STOP),
   ("CALL_UPDATE", .CALL_UPDATE),
   ("FAILURE", .FAILURE),
   ("SOCKET_DATA", .SOCKET_DATA),
   ("MEDIA_BUG_START", .MEDIA_BUG_START),
   ("MEDIA_BUG_STOP", .MEDIA_BUG_STOP),
   ("CONFERENCE_DATA_QUERY", .CONFERENCE_DATA_QUERY),
   ("CONFERENCE_DATA", .CONFERENCE_DATA),
   ("CALL_SETUP_REQ", .CALL_SETUP_REQ),
   ("CALL_SETUP_RESULT", .CALL_SETUP_RESULT),
   ("CALL_DETAIL", .CALL_DETAIL),
   ("DEVICE_STATE", .DEVICE_STATE),
   ("ALL", .ALL)]

/-- Modelled from the spec: the code-generated lookup (the enumer directive in
the source; the generated file is not under src/) from the string form of a
notification name to its tag.  Per the spec it is a static total mapping with
unrecognized names going to the default (zero) tag; the zero tag is what the
caller receives on a miss because the generated function returns the zero value
together with an error that the caller discards. -/
def EventNameString (s : String) : Option EventName :=
  List.lookup s eventNamePairs

/-- The EventType enumeration of the source (Go iota order; EventError is the
zero value). -/
inductive EventType
  | EventError
  | EventState
  | EventConnect
  | EventAuth
  | EventCommandReply
  | EventApiResponse
  | EventDisconnect
  | EventGeneric
deriving DecidableEq, Repr

/-- The MIMEMap struct of the source: a textproto header map plus the flag
telling whether stored values are percent-escaped. -/
structure MIMEMap where
  Map : HeaderMap := []
  IsEscaped : Bool := false
deriving DecidableEq, Repr

/-- MIMEMap.Get of the source: read the first value of the key and, when the
map is flagged escaped, percent-decode it (Go url.QueryUnescape returns the
empty string together with the error on a malformed escape, and the source
ignores the error). -/
def MIMEMap.Get (m : MIMEMap) (key : String) : String :=
  let val := headerMapGet m.Map key
  if m.IsEscaped then (QueryUnescape val).getD ("") else val

/-- The Event struct of the source; the defaults are the Go zero values that
&Event{} starts from. -/
structure Event where
  UId : String := ""
  Name : EventName := .CUSTOM
  App : String := ""
  AppData : String := ""
  Stamp : Int := 0
  «Type» : EventType := .EventError
  Header : MIMEMap := {}
  Body : MIMEMap := {}
  RawBody : List Char := []
deriving DecidableEq, Repr

/-- Event.Get of the source: the header value from the outer header, or, when
empty there, from the body header. -/
def Event.Get (e : Event) (header : String) : String :=
  let val := e.Header.Get header
  if val = "" then e.Body.Get header else val

/-- Outcome of the header-and-body phase of NewEventFromReader (everything
before the Content-Type switch): the event as built so far plus the stream
rest, or an error return, or a runtime panic (make with a negative length). -/
inductive BodyOut
  | proceed (e : Event) (rest : List Char)
  | failed (err : GoError) (rest : List Char)
  | panicked (msg : String)
deriving DecidableEq, Repr

/-- The event NewEventFromReader has built after reading the outer header
block: the zero event with the outer header map installed (escaping off). -/
def hdrEvent (m : HeaderMap) : Event := { Header := { Map := m } }

/-- Header-and-body phase of NewEventFromReader: read the outer MIME header
(io.EOF is passed through untouched, other errors are wrapped as parse-headers
failures), then, when a Content-Length header is present, convert it with Atoi
(failure is a convert error), allocate the body (a negative length makes the
Go make call panic) and read exactly that many bytes (a short read is a
read-body failure, with the reader drained). -/
def headerAndBody (s : List Char) : BodyOut :=
  match readMIMEHeader s with
  | (_, some .eof, rest) => .failed .eof rest
  | (_, some err, rest) => .failed (.parseHeaders err) rest
  | (hdr, none, s1) =>
    let e := hdrEvent hdr
    let slen := e.Get ("Content-Length")
    if slen = "" then .proceed e s1
    else
      match Atoi slen with
      | none => .failed (.convertContentLength slen) s1
      | some n =>
        if n < 0 then .panicked "makeslice: len out of range"
        else if s1.length < n.toNat then .failed .readBody []
        else .proceed { e with RawBody := s1.take n.toNat } (s1.drop n.toNat)

/-- Event.parseTextBody of the source: parse the raw body as a nested MIME
header block (on failure the partial map is still installed, the escape flag
stays off, and the error is wrapped), mark the body map escaped, and populate
the derived fields; the function's return value is the error of converting the
Event-Date-Timestamp header with Atoi. -/
def parseTextBody (e : Event) : Event × Option GoError :=
  match readMIMEHeader e.RawBody with
  | (m, some err, _) => ({ e with Body := { e.Body with Map := m } }, some (.parseTextBodyErr err))
  | (m, none, _) =>
    let e1 := { e with Body := { Map := m, IsEscaped := true } }
    let e2 := { e1 with UId := e1.Get ("Unique-ID") }
    let e3 := { e2 with Name := (EventNameString (e2.Get ("Event-Name"))).getD .CUSTOM }
    let e4 := { e3 with App := e3.Get ("Application") }
    let e5 := { e4 with AppData := trimSpace (e4.Get ("Application-Data")) }
    let ts := e5.Get ("Event-Date-Timestamp")
    match Atoi ts with
    | none => (e5, some (.atoiFail ts))
    | some v => ({ e5 with Stamp := v }, none)

/-- Result of NewEventFromReader: the Go pair (event pointer, error) — either
may be nil/none — plus the position the stream was left at, or a panic. -/
inductive DecodeResult
  | ret (ev : Option Event) (err : Option GoError) (rest : List Char)
  | panicked (msg : String)
deriving DecidableEq, Repr

/-- The Content-Type switch of NewEventFromReader, applied to the event built
by the header-and-body phase.  command/reply validates the success marker in
Reply-Text and flags the outer header escaped when the reply holds a percent
sign; text/event-plain parses the nested body; event-json and event-xml are an
unsupported-format failure with the event still returned; unknown types fall
through with the zero (Error) classification and no error. -/
def classify (e : Event) (rest : List Char) : DecodeResult :=
  let ct := e.Get ("Content-Type")
  if ct = "auth/request" then .ret (some { e with «Type» := .EventAuth }) none rest
  else if ct = "command/reply" then
    let e1 := { e with «Type» := .EventCommandReply }
    let reply := e1.Get ("Reply-Text")
    if !(strContains reply ("+OK")) && !(strContains reply ("%2BOK")) then
      .ret none (some (.commandError (trimSpace reply))) rest
    else
      let e2 :=
        if strContains reply ("%") then { e1 with Header := { e1.Header with IsEscaped := true } }
        else e1
      .ret (some e2) none rest
  else if ct = "text/event-plain" then
    let pr := parseTextBody { e with «Type» := .EventGeneric }
    .ret (some pr.1) pr.2 rest
  else if ct = "text/event-json" ∨ ct = "text/event-xml" then
    .ret (some e) (some (.unsupportedFormat ct)) rest
  else if ct = "text/disconnect-notice" ∨ ct = "text/rude-rejection" then
    .ret (some { e with «Type» := .EventDisconnect }) none rest
  else if ct = "api/response" then
    .ret (some { e with «Type» := .EventApiResponse }) none rest
  else .ret (some e) none rest

/-- NewEventFromReader of the source: header-and-body phase followed by the
Content-Type switch. -/
def NewEventFromReader (s : List Char) : DecodeResult :=
  match headerAndBody s with
  | .panicked m => .panicked m
  | .failed err rest => .ret none (some err) rest
  | .proceed e rest => classify e rest

/-- Result of a Go function returning a string, or a runtime panic. -/
inductive GoStringResult
  | ok (s : String)
  | panicked
deriving DecidableEq, Repr

/-- The Go slice expression l[lo:hi] on a byte slice whose capacity equals its
length: defined when 0 ≤ lo ≤ hi ≤ len, otherwise a bounds panic (none). -/
def goSliceStr (l : List Char) (lo hi : Int) : Option (List Char) :=
  if 0 ≤ lo ∧ lo ≤ hi ∧ hi ≤ (l.length : Int) then
    some ((l.drop lo.toNat).take (hi - lo).toNat)
  else none

/-- Event.GetTextBody of the source: no (or unparseable) nested Content-Length
yields the empty string; otherwise the slice RawBody[blen-bblen : blen-1] is
taken, which panics when out of bounds. -/
def Event.GetTextBody (e : Event) : GoStringResult :=
  let slen := e.Body.Get ("Content-Length")
  if slen ≠ "" then
    match Atoi slen with
    | none => .ok ("")
    | some bblen =>
      let blen : Int := e.RawBody.length
      match goSliceStr e.RawBody (blen - bblen) (blen - 1) with
      | none => .panicked
      | some l => .ok (String.mk l)
  else .ok ("")

/-- The Command struct of the source. -/
structure Command where
  Sync : Bool := false
  UId : String := ""
  App : String := ""
  Args : String := ""
deriving DecidableEq, Repr

/-- Command.Serialize of the source: the sendmsg target line, the execute
call-command line, the application name and argument lines, the event-lock
line chosen by the Sync flag, and a final double newline. -/
def Command.Serialize (cmd : Command) : String :=
  "sendmsg " ++ cmd.UId ++ "\ncall-command: execute\n" ++
  "execute-app-name: " ++ cmd.App ++ "\nexecute-app-arg: " ++ cmd.Args ++ "\n" ++
  (if cmd.Sync then "event-lock: true\n" else "event-lock: false\n") ++
  "\n\n"

/-- The actions the read loop performs on routed frames, recorded as a trace:
the handler's disconnect hook, a hand-off to the command-reply or api-response
channel, a concurrent dispatch of the handler's event hook, and the close hook
fired by Connection.Close. -/
inductive RouteAction
  | onDisconnect (ev : Event)
  | cmdReplySend (ev : Event)
  | apiRespSend (ev : Event)
  | onEvent (ev : Event)
  | onClose
deriving DecidableEq, Repr

/-- Errors returned by HandleEvents, one constructor per return site. -/
inductive LoopErr
  | eventReadLoop (inner : GoError)
  | invalidEvent (ev : Event)
  | disconnected
deriving DecidableEq, Repr

/-- Result of HandleEvents: the returned error if any (none is a normal nil
return), whether Connection.Close was invoked, and the trace of routing
actions; or a propagated panic.  fuelOut is a modelling artifact proven
unreachable for the exported entry point. -/
inductive HEResult
  | ret (err : Option LoopErr) (closed : Bool) (trace : List RouteAction)
  | panicked (msg : String)
  | fuelOut
deriving DecidableEq, Repr

/-- The read loop of the source (HandleEvents), sequentially: while the
connected flag holds, decode a frame; on a decode error, return nil when the
error is io.EOF or the flag was cleared, otherwise close the connection (which
fires the close hook, as the flag is set here) and return the wrapped error; on
a decoded frame route by classification, the Error classification returning an
invalid-event error without closing; when the flag is down at the loop guard,
return the disconnected error.  Channel hand-offs and handler calls are
recorded in the trace; the blocking rendezvous is modelled as immediate.  The
caller instantiates fuel with stream length + 1, proven sufficient below
because every decoded frame consumes at least one byte. -/
def handleEventsF : Nat → Bool → List Char → List RouteAction → HEResult
  | 0, _, _, _ => .fuelOut
  | fuel + 1, connected, s, tr =>
    if connected then
      match NewEventFromReader s with
      | .panicked m => .panicked m
      | .ret _ (some err) _ =>
        if err = .eof ∨ connected = false then .ret none false tr
        else .ret (some (.eventReadLoop err)) true (tr ++ [.onClose])
      | .ret (some ev) none rest =>
        match ev.«Type» with
        | .EventError => .ret (some (.invalidEvent ev)) false tr
        | .EventDisconnect => handleEventsF fuel connected rest (tr ++ [.onDisconnect ev])
        | .EventCommandReply => handleEventsF fuel connected rest (tr ++ [.cmdReplySend ev])
        | .EventApiResponse => handleEventsF fuel connected rest (tr ++ [.apiRespSend ev])
        | .EventGeneric => handleEventsF fuel connected rest (tr ++ [.onEvent ev])
        | _ => handleEventsF fuel connected rest tr
      | .ret none none _ => .panicked "nil pointer dereference"
    else .ret (some .disconnected) false tr

/-- Connection.HandleEvents of the source, run on the remaining stream with
the given connected flag. -/
def HandleEvents (connected : Bool) (s : List Char) : HEResult :=
  handleEventsF (s.length + 1) connected s []

/-- Errors returned by Authenticate, one constructor per return site. -/
inductive AuthErr
  | badAuthPreamble (hdr : MIMEMap)
  | socketReadError (inner : GoError)
  | authReply (inner : GoError)
  | badReplyType (t : EventType)
deriving DecidableEq, Repr

/-- Result of Authenticate: the returned error if any, whether the transport
socket was closed, the final connected flag, and the stream rest; or a
propagated runtime panic. -/
inductive AuthResult
  | ret (err : Option AuthErr) (socketClosed : Bool) (connected : Bool) (rest : List Char)
      (wrote : String)
  | panicked (msg : String)
deriving DecidableEq, Repr

/-- Connection.Authenticate of the source, run on the connection's stream; the
write of the auth command is modelled as succeeding.  The first decode is
followed by the condition (err non-nil or classification not Auth-Request);
inside that branch the socket is closed and the classification of the decoded
event is inspected again, which dereferences a nil event pointer — a runtime
panic — whenever the decoder failed returning a nil event (the so-called
socket-read-error return is reachable only with a non-nil error on an
Auth-Request event, which the decoder never produces).  The second decode must
classify as Command-Reply, any error or other classification closing the
socket; on success the connected flag is set. -/
def Authenticate (password : String) (s : List Char) : AuthResult :=
  match NewEventFromReader s with
  | .panicked m => .panicked m
  | .ret ev? err? rest =>
    match err?, ev? with
    | some _, none => .panicked "nil pointer dereference"
    | some err, some ev =>
      if ev.«Type» ≠ .EventAuth then .ret (some (.badAuthPreamble ev.Header)) true false rest ("")
      else .ret (some (.socketReadError err)) true false rest ("")
    | none, none => .panicked "nil pointer dereference"
    | none, some ev =>
      if ev.«Type» ≠ .EventAuth then .ret (some (.badAuthPreamble ev.Header)) true false rest ("")
      else
        let wrote := "auth " ++ password ++ "

"
        match NewEventFromReader rest with
        | .panicked m => .panicked m
        | .ret _ (some err2) rest2 => .ret (some (.authReply err2)) true false rest2 wrote
        | .ret (some ev2) none rest2 =>
          if ev2.«Type» ≠ .EventCommandReply then
            .ret (some (.badReplyType ev2.«Type»)) true false rest2 wrote
          else .ret none false true rest2 wrote
        | .ret none none _ => .panicked "nil pointer dereference"

/-- The request frame Connection.SendRecv writes: the command, each argument
prefixed by one space, and a double newline. -/
def sendRecvRequest (cmd : String) (args : List String) : String :=
  (args.foldl (fun b a => b ++ " " ++ a) cmd) ++ "\n\n"

/-- Connection.SendRecv of the source after its successful write, applied to
the event delivered by the read loop through the command-reply channel: a
reply text with the -ERR prefix is returned as an error, otherwise the event
is returned. -/
def SendRecv (cmd : String) (args : List String) (delivered : Event) :
    Option Event × Option GoError :=
  let reply := delivered.Get ("Reply-Text")
  if strStarts reply ("-ERR") then
    (none, some (.sendRecvErr cmd args (trimSpace reply)))
  else (some delivered, none)

/-- The request frame Connection.Api writes. -/
def apiRequest (cmd : String) (args : List String) : String :=
  (args.foldl (fun b a => b ++ " " ++ a) ("api " ++ cmd)) ++ "\n\n"

/-- Connection.Api of the source after its successful write, applied to the
event delivered through the api-response channel: a trimmed raw body with the
-ERR prefix is returned as an error (with the empty string), otherwise the raw
body is returned verbatim. -/
def Api (cmd : String) (args : List String) (delivered : Event) :
    String × Option GoError :=
  let resp := trimSpace (String.mk delivered.RawBody)
  if strStarts resp ("-ERR") then ("", some (.apiErr cmd args resp))
  else (String.mk delivered.RawBody, none)

/-- Command.Execute of the source after its successful write of
cmd.Serialize, applied to the event delivered through the command-reply
channel: the written request is returned alongside the Go results, and the
event is returned with a nil error, without any inspection of its reply
text. -/
def Command.Execute (cmd : Command) (delivered : Event) :
    String × Option Event × Option GoError :=
  (cmd.Serialize, some delivered, none)

/-- The intermediate event of parseTextBody for a text/event-plain frame: the classified event with the nested body header map installed and flagged escaped, before the derived fields are populated. -/
def withBody (e : Event) (m : HeaderMap) : Event :=
  { e with «Type» := .EventGeneric, Body := { Map := m, IsEscaped := true } }

/-- Decomposition of a byte sequence into newline-terminated lines (a trailing empty entry stands for the final newline). -/
def splitNL : List Char → List (List Char)
  | [] => [[]]
  | c :: cs =>
    match splitNL cs with
    | [] => []
    | h :: t => if c = '\n' then [] :: h :: t else (c :: h) :: t

/-- The byte sequence the claim describes for Command.Serialize: the target line, the call-command line, the application name and argument lines, the event-lock line, terminated by one blank line. -/
def claimedSerialize (cmd : Command) : String :=
  "sendmsg " ++ cmd.UId ++ "\ncall-command: execute\n" ++
  "execute-app-name: " ++ cmd.App ++ "\nexecute-app-arg: " ++ cmd.Args ++ "\n" ++
  (if cmd.Sync then "event-lock: true\n" else "event-lock: false\n") ++
  "\n"

/-! Concrete inputs used by witnesses and counterexamples. -/

/-- A delivered command-reply event whose reply text carries the -ERR marker. -/
def errEvent : Event := { Header := { Map := [("Reply-Text", ["-ERR denied"])] } }

/-- A sample command value. -/
def cmd0 : Command := { Sync := true, UId := "u-1", App := "playback", Args := "f.wav" }

/-- An event carrying a nested Content-Length of 3 over a five-byte raw body. -/
def c10ev : Event := { Body := { Map := [("Content-Length", ["3"])] }, RawBody := "abcde".toList }

/-- The event decoded from the outer header block of the command-reply witness stream. -/
def c1e : Event :=
  { Header := { Map := [("Content-Type", ["command/reply"]), ("Reply-Text", ["+OK accepted"])] } }

/-- The event decoded from a frame with an unrecognized Content-Type, classified with the default Error tag. -/
def c2ev : Event := { Header := { Map := [("Content-Type", ["zzz"])] } }

/-- A stream whose header block declares Content-Length 3 over a six-byte remainder. -/
def c6s : List Char := "Content-Length: 3\n\nabcXYZ".toList

/-- The nested notification body of the channel-answer witness frame. -/
def c7body : String :=
  "Event-Name: CHANNEL_ANSWER\nUnique-ID: abc-123\nEvent-Date-Timestamp: 1000\n\n"

/-- A text/event-plain frame carrying the channel-answer body with its exact byte length. -/
def c7stream : List Char :=
  ("Content-Type: text/event-plain\nContent-Length: " ++ toString c7body.length ++
    "\n\n" ++ c7body).toList

/-- The event the decoder is expected to produce from c7stream. -/
def c7event : Event :=
  { UId := "abc-123", Name := .CHANNEL_ANSWER, Stamp := 1000, «Type» := .EventGeneric,
    Header := { Map := [("Content-Type", ["text/event-plain"]),
                        ("Content-Length", [toString c7body.length])] },
    Body := { Map := [("Event-Name", ["CHANNEL_ANSWER"]), ("Unique-Id", ["abc-123"]),
                      ("Event-Date-Timestamp", ["1000"])], IsEscaped := true },
    RawBody := c7body.toList }

/-- A nested notification body with no Event-Date-Timestamp header. -/
def c9body : String :=
  "Event-Name: CHANNEL_ANSWER\nUnique-ID: u1\nApplication: playback\nApplication-Data: moh\n\n"

/-- A text/event-plain frame carrying the timestamp-free body. -/
def c9s : List Char :=
  ("Content-Type: text/event-plain\nContent-Length: " ++ toString c9body.length ++
    "\n\n" ++ c9body).toList

/-- The event built from the outer header block of c9s, before classification. -/
def c9e : Event :=
  { Header := { Map := [("Content-Type", ["text/event-plain"]),
                        ("Content-Length", [toString c9body.length])] },
    RawBody := c9body.toList }

/-- The nested header map parsed from c9body. -/
def c9bm : HeaderMap :=
  [("Event-Name", ["CHANNEL_ANSWER"]), ("Unique-Id", ["u1"]),
   ("Application", ["playback"]), ("Application-Data", ["moh"])]

/-! Supporting lemmas: record-update normalization for Event.Get, shape facts
about the decoder phases, line-structure lemmas for the serializer, and the
proofs that the fuel instantiations of the loop models never run out. -/

/-- Event.Get reads only the Header and Body fields. -/
theorem Event.Get_depends (u : String) (nm : EventName) (a ad : String) (st : Int)
    (t : EventType) (H B : MIMEMap) (rb : List Char) (k : String) :
    Event.Get { UId := u, Name := nm, App := a, AppData := ad, Stamp := st, «Type» := t,
                Header := H, Body := B, RawBody := rb } k =
    Event.Get { Header := H, Body := B } k := rfl

/-- Event.Get on the two-field skeleton of an event agrees with Event.Get on the event. -/
theorem Event.Get_eta (e : Event) (k : String) :
    Event.Get { Header := e.Header, Body := e.Body } k = e.Get k := rfl

/-- parseTextBody leaves the raw body and the classification untouched. -/
theorem parseTextBody_fields (e : Event) :
    ((parseTextBody e).1).RawBody = e.RawBody ∧ ((parseTextBody e).1).«Type» = e.«Type» := by
  unfold parseTextBody
  rcases h : readMIMEHeader e.RawBody with ⟨m, err?, r⟩
  cases err? with
  | some err => simp
  | none =>
    dsimp only
    split <;> simp

/-- An event produced by the header-and-body phase has an unescaped header and the zero (Error) classification. -/
theorem headerAndBody_proceed_struct (s : List Char) (e : Event) (rest : List Char)
    (h : headerAndBody s = .proceed e rest) :
    e.Header.IsEscaped = false ∧ e.«Type» = .EventError := by
  unfold headerAndBody at h
  split at h
  · cases h
  · cases h
  · dsimp only at h
    split at h
    · cases h; exact ⟨rfl, rfl⟩
    · split at h
      · cases h
      · split at h
        · cases h
        · split at h
          · cases h
          · cases h; exact ⟨rfl, rfl⟩

/-- The Content-Type switch always returns, leaves the stream where the body phase left it, and never alters the raw body of the event it returns. -/
theorem classify_preserves (e : Event) (rest : List Char) :
    ∃ ev err, classify e rest = .ret ev err rest ∧
      ∀ e', ev = some e' → e'.RawBody = e.RawBody := by
  unfold classify
  dsimp only
  split
  · exact ⟨_, _, rfl, by rintro e' ⟨rfl⟩; rfl⟩
  · split
    · split
      · exact ⟨_, _, rfl, by rintro e' h; cases h⟩
      · refine ⟨_, _, rfl, ?_⟩
        rintro e' ⟨rfl⟩
        split <;> rfl
    · split
      · refine ⟨_, _, rfl, ?_⟩
        rintro e' ⟨rfl⟩
        exact (parseTextBody_fields _).1
      · split
        · exact ⟨_, _, rfl, by rintro e' ⟨rfl⟩; rfl⟩
        · split
          · exact ⟨_, _, rfl, by rintro e' ⟨rfl⟩; rfl⟩
          · split
            · exact ⟨_, _, rfl, by rintro e' ⟨rfl⟩; rfl⟩
            · exact ⟨_, _, rfl, by rintro e' ⟨rfl⟩; rfl⟩

/-- String append concatenates the underlying character lists. -/
theorem str_toList_append (a b : String) : (a ++ b).toList = a.toList ++ b.toList :=
  String.data_append a b

/-- splitNL never returns an empty decomposition. -/
theorem splitNL_ne_nil (s : List Char) : splitNL s ≠ [] := by
  induction s with
  | nil => simp [splitNL]
  | cons c cs ih =>
    simp only [splitNL]
    rcases hs : splitNL cs with _ | ⟨a, t⟩
    · exact absurd hs ih
    · by_cases hc : c = '\n' <;> simp [hc]

/-- splitNL peels one newline-terminated line off the front. -/
theorem splitNL_line (l rest : List Char) (hl : '\n' ∉ l) :
    splitNL (l ++ '\n' :: rest) = l :: splitNL rest := by
  induction l with
  | nil =>
    simp only [List.nil_append, splitNL]
    cases h : splitNL rest with
    | nil => exact absurd h (splitNL_ne_nil rest)
    | cons a t => simp
  | cons c cs ih =>
    have hc : c ≠ '\n' := by
      intro hh
      exact hl (hh ▸ List.mem_cons_self c cs)
    have hcs : '\n' ∉ cs := fun hm => hl (List.mem_cons_of_mem _ hm)
    rw [List.cons_append]
    simp only [splitNL, List.append_eq]
    rw [ih hcs]
    simp [hc]

/-- Splitting at a found newline consumes at least that byte. -/
theorem breakNL_some_lt (s a r : List Char) (h : breakNL s = (a, some r)) :
    r.length < s.length := by
  induction s generalizing a r with
  | nil => simp [breakNL] at h
  | cons c cs ih =>
    simp only [breakNL] at h
    split at h
    · cases h
      simp
    · rcases hb : breakNL cs with ⟨a', r'⟩
      rw [hb] at h
      cases h
      have := ih a' r hb
      simp
      omega

/-- A successfully read line consumes at least one byte. -/
theorem readLine_some_lt (s l r : List Char) (h : readLine s = some (l, r)) :
    r.length < s.length := by
  cases s with
  | nil => simp [readLine] at h
  | cons c cs =>
    simp only [readLine] at h
    rcases hb : breakNL (c :: cs) with ⟨a, ro⟩
    rw [hb] at h
    cases ro with
    | some r2 =>
      cases h
      exact breakNL_some_lt _ _ _ hb
    | none =>
      cases h
      simp

/-- skipSpace never lengthens the stream. -/
theorem skipSpace_len (s : List Char) : (skipSpace s).2.length ≤ s.length := by
  induction s with
  | nil => simp [skipSpace]
  | cons c cs ih =>
    simp only [skipSpace]
    split
    · rcases h : skipSpace cs with ⟨n, r⟩
      rw [h] at ih
      simp at ih ⊢
      omega
    · simp

/-- The continuation-line loop never lengthens the stream. -/
theorem contLoop_len (fuel : Nat) (acc s : List Char) :
    (contLoop fuel acc s).2.length ≤ s.length := by
  induction fuel generalizing acc s with
  | zero => simp [contLoop]
  | succ f ih =>
    simp only [contLoop]
    rcases hs : skipSpace s with ⟨n, s1⟩
    have hs1 : s1.length ≤ s.length := by
      have := skipSpace_len s
      rw [hs] at this
      exact this
    split
    · simp
    · rcases hr : readLine s1 with _ | ⟨l, r⟩
      · simpa using hs1
      · have hrl := readLine_some_lt _ _ _ hr
        have := ih (acc ++ ' ' :: trimST l) r
        simp
        omega

/-- A successfully read continued line consumes at least one byte. -/
theorem readContinuedLine_lt (s kv r : List Char) (h : readContinuedLine s = some (kv, r)) :
    r.length < s.length := by
  unfold readContinuedLine at h
  rcases hr : readLine s with _ | ⟨l, r0⟩ <;> rw [hr] at h
  · cases h
  · have h0 := readLine_some_lt _ _ _ hr
    dsimp only at h
    by_cases hl : l = []
    · rw [if_pos hl] at h
      cases h
      exact h0
    · rw [if_neg hl] at h
      have h' := Option.some.inj h
      have hr2 : (contLoop r0.length (trimST l) r0).2.length = r.length := by rw [h']
      have := contLoop_len r0.length (trimST l) r0
      omega

/-- With fuel above the stream length the header loop never reports fuel exhaustion, and a successful header block consumes at least one byte. -/
theorem readMIMEHeaderAux_props (fuel : Nat) (m : HeaderMap) (s : List Char) :
    (s.length < fuel → (readMIMEHeaderAux fuel m s).2.1 ≠ some .fuelOut) ∧
    ((readMIMEHeaderAux fuel m s).2.1 = none →
      (readMIMEHeaderAux fuel m s).2.2.length < s.length) := by
  induction fuel generalizing m s with
  | zero =>
    constructor
    · intro hf
      omega
    · intro hn
      simp [readMIMEHeaderAux] at hn
  | succ f ih =>
    simp only [readMIMEHeaderAux]
    split
    · constructor
      · intro _
        simp
      · intro hn
        simp at hn
    · rename_i rest heq
      have hlt := readContinuedLine_lt _ _ _ heq
      constructor
      · intro _
        simp
      · intro _
        simpa using hlt
    · rename_i kv rest heq hne
      have hlt := readContinuedLine_lt _ _ _ hne
      split
      · constructor
        · intro _
          simp
        · intro hn
          simp at hn
      · rename_i k v heq2
        constructor
        · intro hf
          exact (ih _ rest).1 (by omega)
        · intro hn
          have h2 := (ih _ rest).2 hn
          omega

/-- readMIMEHeader is instantiated with sufficient fuel. -/
theorem readMIMEHeader_no_fuelOut (s : List Char) :
    (readMIMEHeader s).2.1 ≠ some .fuelOut :=
  (readMIMEHeaderAux_props (s.length + 1) [] s).1 (by omega)

/-- A successfully parsed header block consumes at least one byte. -/
theorem readMIMEHeader_ok_lt (s : List Char) (h : (readMIMEHeader s).2.1 = none) :
    (readMIMEHeader s).2.2.length < s.length :=
  (readMIMEHeaderAux_props (s.length + 1) [] s).2 h

/-- The header-and-body phase consumes at least one byte when it proceeds. -/
theorem headerAndBody_proceed_lt (s : List Char) (e : Event) (rest : List Char)
    (h : headerAndBody s = .proceed e rest) : rest.length < s.length := by
  unfold headerAndBody at h
  have hok := readMIMEHeader_ok_lt s
  rcases hm : readMIMEHeader s with ⟨hdr, err?, s1⟩
  rw [hm] at h hok
  simp only at hok
  cases err? with
  | some e' =>
    cases e' <;> simp at h
  | none =>
    have hs1 : s1.length < s.length := hok rfl
    dsimp only at h
    split at h
    · cases h
      exact hs1
    · split at h
      · cases h
      · split at h
        · cases h
        · split at h
          · cases h
          · cases h
            simp only [List.length_drop]
            omega

/-- A decode that returns without error consumes at least one byte. -/
theorem decode_ret_none_lt (s : List Char) (ev : Option Event) (rest : List Char)
    (h : NewEventFromReader s = .ret ev none rest) : rest.length < s.length := by
  unfold NewEventFromReader at h
  rcases hb : headerAndBody s with ⟨e, r⟩ | ⟨err, r⟩ | m <;> rw [hb] at h <;> dsimp only at h
  · obtain ⟨ev', err', hcl, _⟩ := classify_preserves e r
    rw [hcl] at h
    cases h
    exact headerAndBody_proceed_lt s e _ hb
  · cases h
  · cases h

/-- With fuel above the stream length the read loop never reports fuel exhaustion. -/
theorem handleEventsF_no_fuelOut (fuel : Nat) (connected : Bool) (s : List Char)
    (tr : List RouteAction) (hf : s.length < fuel) :
    handleEventsF fuel connected s tr ≠ .fuelOut := by
  induction fuel generalizing connected s tr with
  | zero => omega
  | succ f ih =>
    simp only [handleEventsF]
    by_cases hc : connected = true
    · rw [if_pos hc]
      rcases hd : NewEventFromReader s with ⟨ev?, err?, rest⟩ | m
      · cases err? with
        | some e' =>
          cases ev? <;> dsimp only <;> split <;> simp
        | none =>
          cases ev? with
          | none => simp
          | some ev =>
            have hlt := decode_ret_none_lt s (some ev) rest hd
            cases hT : ev.«Type» <;> simp only [hT] <;>
              first
                | (simp; done)
                | exact ih connected rest _ (by omega)
      · simp
    · rw [if_neg hc]
      simp

/-- HandleEvents is instantiated with sufficient fuel. -/
theorem HandleEvents_no_fuelOut (connected : Bool) (s : List Char) :
    HandleEvents connected s ≠ .fuelOut :=
  handleEventsF_no_fuelOut (s.length + 1) connected s [] (by omega)

/-! Theorems for the claims, with their witnesses and counterexamples. -/

/-- C5: the claim says a failed decode of the first frame makes Authenticate
return an error with the socket closed; on an immediate end of stream the
decoder returns a nil event with io.EOF, and Authenticate, after closing the
socket, dereferences the nil event to re-check its classification and panics
instead of returning an error (its socket-read-error return is unreachable for
nil-event failures). -/
theorem c5_authenticate_nil_deref :
    Authenticate ("ClueCon") ([] : List Char) = .panicked "nil pointer dereference" := by
  decide

/-- C4 counterexample: the claim says Command.Execute inspects the delivered
reply-status text and returns a typed failure when the failure marker is
present; on a delivered event whose Reply-Text is "-ERR denied" Execute
returns the event with a nil error. -/
theorem c4_execute_no_inspection :
    strStarts (errEvent.Get ("Reply-Text")) ("-ERR") = true ∧
    (Command.Execute cmd0 errEvent).2.1 = some errEvent ∧
    (Command.Execute cmd0 errEvent).2.2 = none := by
  decide

/-- C4 (amended): SendRecv and Api inspect the delivered event's reply text
(resp. trimmed raw body) for the -ERR prefix and return a typed failure
exactly when it is present, the event (resp. the body verbatim) otherwise;
Command.Execute writes its serialized request and returns the delivered event
with a nil error without any inspection. -/
theorem c4_sync_request_inspection (ev : Event) (cmd : String) (args : List String)
    (c : Command) :
    (strStarts (ev.Get ("Reply-Text")) ("-ERR") = true →
      SendRecv cmd args ev =
        (none, some (.sendRecvErr cmd args (trimSpace (ev.Get ("Reply-Text")))))) ∧
    (strStarts (ev.Get ("Reply-Text")) ("-ERR") = false →
      SendRecv cmd args ev = (some ev, none)) ∧
    (strStarts (trimSpace (String.mk ev.RawBody)) ("-ERR") = true →
      Api cmd args ev = ("", some (.apiErr cmd args (trimSpace (String.mk ev.RawBody))))) ∧
    (strStarts (trimSpace (String.mk ev.RawBody)) ("-ERR") = false →
      Api cmd args ev = (String.mk ev.RawBody, none)) ∧
    Command.Execute c ev = (c.Serialize, some ev, none) := by
  refine ⟨?_, ?_, ?_, ?_, rfl⟩ <;> intro h <;> simp [SendRecv, Api, h]

/-- C4 witness: the SendRecv branch of the amended theorem applied to a
delivered event carrying the failure marker. -/
theorem c4_witness :
    SendRecv ("uptime") ([]) errEvent =
      (none, some (.sendRecvErr ("uptime") ([]) (trimSpace (errEvent.Get ("Reply-Text"))))) :=
  (c4_sync_request_inspection errEvent ("uptime") ([]) cmd0).1 (by decide)

/-- C10: GetTextBody returns the empty string when the nested Content-Length
is absent or does not parse; when it parses as n the slice taken is the last n
raw-body bytes with the final byte dropped, in bounds exactly when 0 < n and n
is at most the raw-body length, and a panic otherwise. -/
theorem c10_get_text_body (e : Event) :
    (e.Body.Get ("Content-Length") = "" ∨ Atoi (e.Body.Get ("Content-Length")) = none →
      e.GetTextBody = .ok ("")) ∧
    (∀ n : Int, e.Body.Get ("Content-Length") ≠ "" →
      Atoi (e.Body.Get ("Content-Length")) = some n →
      ((e.GetTextBody = .panicked ↔ ¬(0 < n ∧ n ≤ (e.RawBody.length : Int))) ∧
       (0 < n → n ≤ (e.RawBody.length : Int) →
         e.GetTextBody =
           .ok (String.mk
             ((e.RawBody.drop (e.RawBody.length - n.toNat)).take (n.toNat - 1)))))) := by
  constructor
  · intro h
    unfold Event.GetTextBody
    rcases h with h | h
    · simp [h]
    · by_cases hs : e.Body.Get ("Content-Length") = ""
      · simp [hs]
      · simp [hs, h]
  · intro n hs hn
    unfold Event.GetTextBody
    simp only [hs, hn, ne_eq, not_false_eq_true, if_true, ite_not]
    unfold goSliceStr
    by_cases hc : (0 : Int) ≤ (e.RawBody.length : Int) - n ∧
        (e.RawBody.length : Int) - n ≤ (e.RawBody.length : Int) - 1 ∧
        (e.RawBody.length : Int) - 1 ≤ (e.RawBody.length : Int)
    · rw [if_pos hc]
      constructor
      · simp only [GoStringResult.ok.injEq]
        constructor
        · intro h; cases h
        · intro h; exact absurd ⟨by omega, by omega⟩ h
      · intro h1 h2
        have e1 : ((e.RawBody.length : Int) - n).toNat = e.RawBody.length - n.toNat := by omega
        have e2 : ((e.RawBody.length : Int) - 1 - ((e.RawBody.length : Int) - n)).toNat =
            n.toNat - 1 := by omega
        rw [e1, e2]
    · rw [if_neg hc]
      constructor
      · constructor
        · intro _; intro hcon; exact hc ⟨by omega, by omega, by omega⟩
        · intro _; rfl
      · intro h1 h2; exact absurd ⟨by omega, by omega, by omega⟩ hc

/-- C10 witness: a nested Content-Length of 3 over the five-byte raw body
abcde yields the last three bytes with the final one dropped, cd. -/
theorem c10_witness : c10ev.GetTextBody = .ok ("cd") := by
  have h := ((c10_get_text_body c10ev).2 3 (by decide) (by decide)).2 (by decide) (by decide)
  exact h.trans (by decide)

/-- C1: for a decoded frame whose Content-Type is command/reply, a Reply-Text containing neither the plain nor the percent-encoded success marker makes the decoder return a command-error failure and no event; with the marker present the decoder returns an event classified Command-Reply whose outer header map is flagged escaped exactly when the reply text contains a percent sign. -/
theorem c1_command_reply (s : List Char) (e : Event) (rest : List Char)
    (h : headerAndBody s = .proceed e rest)
    (hct : e.Get ("Content-Type") = "command/reply") :
    (strContains (e.Get ("Reply-Text")) ("+OK") = false →
     strContains (e.Get ("Reply-Text")) ("%2BOK") = false →
      NewEventFromReader s =
        .ret none (some (.commandError (trimSpace (e.Get ("Reply-Text"))))) rest) ∧
    ((strContains (e.Get ("Reply-Text")) ("+OK") = true ∨
      strContains (e.Get ("Reply-Text")) ("%2BOK") = true) →
      ∃ e2, NewEventFromReader s = .ret (some e2) none rest ∧
        e2.«Type» = .EventCommandReply ∧
        e2.Header.IsEscaped = strContains (e.Get ("Reply-Text")) ("%")) := by
  have hesc := (headerAndBody_proceed_struct s e rest h).1
  simp only [NewEventFromReader, h, classify]
  rw [hct]
  rw [if_neg (by decide), if_pos rfl]
  simp only [Event.Get_depends, Event.Get_eta]
  constructor
  · intro h1 h2
    rw [h1, h2]
    rw [if_pos (by decide)]
  · intro hm
    have hcond : (!strContains (e.Get ("Reply-Text")) ("+OK") &&
        !strContains (e.Get ("Reply-Text")) ("%2BOK")) = false := by
      rcases hm with hm | hm <;> rw [hm] <;> simp
    rw [hcond]
    rw [if_neg (by decide)]
    by_cases hp : strContains (e.Get ("Reply-Text")) ("%") = true
    · rw [if_pos hp]
      exact ⟨_, rfl, rfl, by rw [hp]⟩
    · rw [if_neg hp]
      refine ⟨_, rfl, rfl, ?_⟩
      rw [Bool.not_eq_true] at hp
      rw [hp]
      exact hesc

/-- C1 witness: a command/reply frame whose reply text carries the plain marker. -/
theorem c1_witness :
    ∃ e2, NewEventFromReader
        ("Content-Type: command/reply\nReply-Text: +OK accepted\n\n".toList) =
        .ret (some e2) none [] ∧
      e2.«Type» = .EventCommandReply ∧
      e2.Header.IsEscaped = strContains (c1e.Get ("Reply-Text")) ("%") :=
  (c1_command_reply _ c1e [] (by decide) (by decide)).2 (Or.inl (by decide))

/-- C2 counterexample: on a clean end-of-stream while the connected flag is set, HandleEvents returns nil without closing the connection or reporting a failure, and when the flag is down it returns a disconnected failure rather than a normal return. -/
theorem c2_counterexample :
    HandleEvents true ([] : List Char) = .ret none false [] ∧
    HandleEvents false ([] : List Char) = .ret (some .disconnected) false [] := by decide

/-- C2 (amended): when the connected flag is down at the loop guard HandleEvents returns the disconnected failure without reading; while connected, a clean end-of-stream (io.EOF, or any failure once the flag is observed cleared) returns nil without closing; any other decode failure closes the connection and reports the wrapped failure; a frame carrying the Error classification returns an invalid-event failure without closing; any other classified frame routes and the loop continues on the remaining stream. -/
theorem c2_read_loop (s : List Char) :
    (HandleEvents false s = .ret (some .disconnected) false []) ∧
    (∀ ev? rest, NewEventFromReader s = .ret ev? (some .eof) rest →
      HandleEvents true s = .ret none false []) ∧
    (∀ ev? err2 rest, NewEventFromReader s = .ret ev? (some err2) rest → err2 ≠ .eof →
      HandleEvents true s = .ret (some (.eventReadLoop err2)) true [.onClose]) ∧
    (∀ ev rest, NewEventFromReader s = .ret (some ev) none rest → ev.«Type» = .EventError →
      HandleEvents true s = .ret (some (.invalidEvent ev)) false []) ∧
    (∀ ev rest, NewEventFromReader s = .ret (some ev) none rest → ev.«Type» ≠ .EventError →
      ∃ tr, HandleEvents true s = handleEventsF s.length true rest tr) := by
  refine ⟨?_, ?_, ?_, ?_, ?_⟩
  · show handleEventsF (s.length + 1) false s [] = _
    rw [handleEventsF]
    rfl
  · intro ev? rest hdec
    show handleEventsF (s.length + 1) true s [] = _
    rw [handleEventsF, hdec]
    simp
  · intro ev? err2 rest hdec hne
    show handleEventsF (s.length + 1) true s [] = _
    rw [handleEventsF, hdec]
    simp [hne]
  · intro ev rest hdec hT
    show handleEventsF (s.length + 1) true s [] = _
    rw [handleEventsF, hdec]
    simp [hT]
  · intro ev rest hdec hT
    show ∃ tr, handleEventsF (s.length + 1) true s [] = handleEventsF s.length true rest tr
    rw [handleEventsF, hdec]
    cases hTy : ev.«Type» with
    | EventError => exact absurd hTy hT
    | EventState => simp [hTy]
    | EventConnect => simp [hTy]
    | EventAuth => simp [hTy]
    | EventCommandReply => simp [hTy]
    | EventApiResponse => simp [hTy]
    | EventDisconnect => simp [hTy]
    | EventGeneric => simp [hTy]

/-- C2 witness: a frame with an unrecognized Content-Type terminates the loop with an invalid-event failure. -/
theorem c2_witness :
    HandleEvents true ("Content-Type: zzz\n\n".toList) =
      .ret (some (.invalidEvent c2ev)) false [] :=
  (c2_read_loop _).2.2.2.1 c2ev [] (by decide) (by decide)

/-- C3: classification of a decoded frame is the stated function of the outer Content-Type value: auth/request to Auth-Request, command/reply to Command-Reply (or the decoder failure), text/event-plain to Generic-Notification, event-json and event-xml to an unsupported-format failure with no classification assigned, disconnect-notice and rude-rejection to Disconnect, api/response to Api-Response, and anything else, a missing header included, to the default Error classification with no failure. -/
theorem c3_classification (s : List Char) (e : Event) (rest : List Char)
    (h : headerAndBody s = .proceed e rest) :
    (e.Get ("Content-Type") = "auth/request" →
      NewEventFromReader s = .ret (some { e with «Type» := .EventAuth }) none rest) ∧
    (e.Get ("Content-Type") = "command/reply" →
      (∃ err2, NewEventFromReader s = .ret none (some err2) rest) ∨
      (∃ e2, NewEventFromReader s = .ret (some e2) none rest ∧
        e2.«Type» = .EventCommandReply)) ∧
    (e.Get ("Content-Type") = "text/event-plain" →
      ∃ e2 err2, NewEventFromReader s = .ret (some e2) err2 rest ∧
        e2.«Type» = .EventGeneric) ∧
    (e.Get ("Content-Type") = "text/event-json" ∨ e.Get ("Content-Type") = "text/event-xml" →
      NewEventFromReader s =
        .ret (some e) (some (.unsupportedFormat (e.Get ("Content-Type")))) rest ∧
      e.«Type» = .EventError) ∧
    (e.Get ("Content-Type") = "text/disconnect-notice" ∨
     e.Get ("Content-Type") = "text/rude-rejection" →
      NewEventFromReader s = .ret (some { e with «Type» := .EventDisconnect }) none rest) ∧
    (e.Get ("Content-Type") = "api/response" →
      NewEventFromReader s = .ret (some { e with «Type» := .EventApiResponse }) none rest) ∧
    (e.Get ("Content-Type") ∉ (["auth/request", "command/reply", "text/event-plain",
        "text/event-json", "text/event-xml", "text/disconnect-notice", "text/rude-rejection",
        "api/response"] : List String) →
      NewEventFromReader s = .ret (some e) none rest ∧ e.«Type» = .EventError) := by
  have htype := (headerAndBody_proceed_struct s e rest h).2
  simp only [NewEventFromReader, h, classify]
  refine ⟨?_, ?_, ?_, ?_, ?_, ?_, ?_⟩
  · intro hct; rw [hct]; rw [if_pos rfl]
  · intro hct; rw [hct]
    rw [if_neg (by decide), if_pos rfl]
    by_cases hc : (!strContains (Event.Get { e with «Type» := .EventCommandReply }
        ("Reply-Text")) ("+OK") &&
        !strContains (Event.Get { e with «Type» := .EventCommandReply }
        ("Reply-Text")) ("%2BOK")) = true
    · rw [if_pos hc]; exact Or.inl ⟨_, rfl⟩
    · rw [if_neg hc]
      refine Or.inr ⟨_, rfl, ?_⟩
      split <;> rfl
  · intro hct; rw [hct]
    rw [if_neg (by decide), if_neg (by decide), if_pos rfl]
    refine ⟨_, _, rfl, ?_⟩
    simpa using (parseTextBody_fields { e with «Type» := .EventGeneric }).2
  · intro hct
    rcases hct with hct | hct <;> rw [hct] <;>
      rw [if_neg (by decide), if_neg (by decide), if_neg (by decide), if_pos (by decide)] <;>
      exact ⟨rfl, htype⟩
  · intro hct
    rcases hct with hct | hct <;> rw [hct] <;>
      rw [if_neg (by decide), if_neg (by decide), if_neg (by decide), if_neg (by decide),
        if_pos (by decide)]
  · intro hct; rw [hct]
    rw [if_neg (by decide), if_neg (by decide), if_neg (by decide), if_neg (by decide),
      if_neg (by decide), if_pos rfl]
  · intro hns
    simp only [List.mem_cons, List.not_mem_nil, or_false, not_or] at hns
    obtain ⟨h1, h2, h3, h4, h5, h6, h7, h8⟩ := hns
    rw [if_neg h1, if_neg h2, if_neg h3, if_neg (not_or.mpr ⟨h4, h5⟩),
      if_neg (not_or.mpr ⟨h6, h7⟩), if_neg h8]
    exact ⟨rfl, htype⟩

/-- C3 witness: a frame with no Content-Type header falls to the default Error classification with no failure. -/
theorem c3_witness :
    NewEventFromReader ("\n".toList) = .ret (some (hdrEvent [])) none [] ∧
    (hdrEvent []).«Type» = .EventError :=
  (c3_classification ("\n".toList) (hdrEvent []) [] (by decide)).2.2.2.2.2.2 (by decide)

/-- C6 counterexample: a Content-Length that parses as the negative integer -1 makes the decoder panic at the slice allocation, so it neither reads that many bytes nor returns a transport failure. -/
theorem c6_negative_length_panics :
    NewEventFromReader ("Content-Length: -1\n\n".toList) =
      .panicked "makeslice: len out of range" := by decide

/-- C6 (amended): for a header block whose Content-Length parses as n, when 0 <= n and n bytes are available the decoder takes exactly n bytes as the raw body and leaves the stream immediately after them; when 0 <= n and fewer than n bytes are available it returns a read-body transport failure; when n is negative it panics at the slice allocation. -/
theorem c6_body_read (s : List Char) (hdr : HeaderMap) (s1 : List Char) (n : Int)
    (hh : readMIMEHeader s = (hdr, none, s1))
    (hs : (hdrEvent hdr).Get ("Content-Length") ≠ "")
    (hn : Atoi ((hdrEvent hdr).Get ("Content-Length")) = some n) :
    (0 ≤ n → n.toNat ≤ s1.length →
      ∃ ev err2, NewEventFromReader s = .ret ev err2 (s1.drop n.toNat) ∧
        ∀ e', ev = some e' → e'.RawBody = s1.take n.toNat) ∧
    (0 ≤ n → s1.length < n.toNat →
      NewEventFromReader s = .ret none (some .readBody) []) ∧
    (n < 0 → NewEventFromReader s = .panicked "makeslice: len out of range") := by
  have hB : headerAndBody s =
      (if n < 0 then .panicked "makeslice: len out of range"
       else if s1.length < n.toNat then .failed .readBody []
       else .proceed { hdrEvent hdr with RawBody := s1.take n.toNat } (s1.drop n.toNat)) := by
    simp only [headerAndBody, hh]
    rw [if_neg hs, hn]
  refine ⟨?_, ?_, ?_⟩
  · intro h0 hle
    have hB2 : headerAndBody s =
        .proceed { hdrEvent hdr with RawBody := s1.take n.toNat } (s1.drop n.toNat) := by
      rw [hB, if_neg (by omega), if_neg (by omega)]
    obtain ⟨ev, err2, hcl, hraw⟩ :=
      classify_preserves { hdrEvent hdr with RawBody := s1.take n.toNat } (s1.drop n.toNat)
    refine ⟨ev, err2, ?_, ?_⟩
    · simp only [NewEventFromReader, hB2, hcl]
    · intro e' he'
      simpa using hraw e' he'
  · intro h0 hlt
    have hB2 : headerAndBody s = .failed .readBody [] := by
      rw [hB, if_neg (by omega), if_pos hlt]
    simp only [NewEventFromReader, hB2]
  · intro hneg
    have hB2 : headerAndBody s = .panicked "makeslice: len out of range" := by
      rw [hB, if_pos hneg]
    simp only [NewEventFromReader, hB2]

/-- C6 witness: a three-byte body is taken exactly, leaving the stream at the next frame boundary. -/
theorem c6_witness :
    ∃ ev err2, NewEventFromReader c6s = .ret ev err2 (("abcXYZ".toList).drop ((3 : Int)).toNat) ∧
      ∀ e', ev = some e' → e'.RawBody = ("abcXYZ".toList).take ((3 : Int)).toNat :=
  (c6_body_read c6s [("Content-Length", ["3"])] ("abcXYZ".toList) 3
    (by decide) (by decide) (by decide)).1 (by decide) (by decide)

/-- C7: the text/event-plain frame whose nested headers name CHANNEL_ANSWER, abc-123 and timestamp 1000 decodes without failure to a Generic-Notification event with that name tag, call-leg id and integer timestamp, and the nested body header map is flagged percent-escaped. -/
theorem c7_generic_decode :
    NewEventFromReader c7stream = .ret (some c7event) none [] ∧
    c7event.Name = .CHANNEL_ANSWER ∧ c7event.UId = "abc-123" ∧ c7event.Stamp = 1000 ∧
    c7event.«Type» = .EventGeneric ∧ c7event.Body.IsEscaped = true := by
  exact ⟨by decide, rfl, rfl, rfl, rfl, rfl⟩

/-- C9: a text/event-plain frame whose nested body header block parses but whose Event-Date-Timestamp is absent or not a decimal integer makes NewEventFromReader return the Atoi error, even though the returned event has its call-leg id, name tag, application name and trimmed application argument populated from the nested headers. -/
theorem c9_timestamp_decode_fails (s : List Char) (e : Event) (rest : List Char)
    (bm : HeaderMap) (r2 : List Char)
    (h : headerAndBody s = .proceed e rest)
    (hct : e.Get ("Content-Type") = "text/event-plain")
    (hb : readMIMEHeader e.RawBody = (bm, none, r2))
    (hts : Atoi ((withBody e bm).Get ("Event-Date-Timestamp")) = none) :
    NewEventFromReader s =
      .ret (some { withBody e bm with
                    UId := (withBody e bm).Get ("Unique-ID"),
                    Name := (EventNameString ((withBody e bm).Get ("Event-Name"))).getD .CUSTOM,
                    App := (withBody e bm).Get ("Application"),
                    AppData := trimSpace ((withBody e bm).Get ("Application-Data")) })
        (some (.atoiFail ((withBody e bm).Get ("Event-Date-Timestamp")))) rest := by
  simp only [NewEventFromReader, h, classify]
  rw [hct]
  rw [if_neg (by decide), if_neg (by decide), if_pos rfl]
  simp only [parseTextBody]
  rw [show ({ e with «Type» := .EventGeneric } : Event).RawBody = e.RawBody from rfl]
  rw [hb]
  simp only [withBody, Event.Get_depends, Event.Get_eta] at hts ⊢
  rw [hts]

/-- C9 witness: a nested body with no Event-Date-Timestamp header. -/
theorem c9_witness :
    NewEventFromReader c9s =
      .ret (some { withBody c9e c9bm with
                    UId := (withBody c9e c9bm).Get ("Unique-ID"),
                    Name := (EventNameString ((withBody c9e c9bm).Get ("Event-Name"))).getD .CUSTOM,
                    App := (withBody c9e c9bm).Get ("Application"),
                    AppData := trimSpace ((withBody c9e c9bm).Get ("Application-Data")) })
        (some (.atoiFail ((withBody c9e c9bm).Get ("Event-Date-Timestamp")))) [] :=
  c9_timestamp_decode_fails c9s c9e [] c9bm [] (by decide) (by decide) (by decide) (by decide)

/-- C8 counterexample: Command.Serialize does not produce the grammar terminated by one blank line; its output is that byte sequence with one extra newline (a second blank line). -/
theorem c8_counterexample :
    Command.Serialize cmd0 ≠ claimedSerialize cmd0 ∧
    Command.Serialize cmd0 = claimedSerialize cmd0 ++ "\n" := by decide

/-- C8 (amended): for every Command whose fields hold no newline, Command.Serialize is pure and total and produces exactly the target line naming the call-leg id, the execute call-command line, the application-name line, the application-argument line and the event-lock line chosen by the Sync flag, terminated by two blank lines rather than the single blank line the claim states. -/
theorem c8_serialize_lines (cmd : Command)
    (hu : '\n' ∉ cmd.UId.toList) (ha : '\n' ∉ cmd.App.toList) (hg : '\n' ∉ cmd.Args.toList) :
    splitNL (cmd.Serialize).toList =
      [("sendmsg " ++ cmd.UId).toList, "call-command: execute".toList,
       ("execute-app-name: " ++ cmd.App).toList, ("execute-app-arg: " ++ cmd.Args).toList,
       (if cmd.Sync then "event-lock: true" else "event-lock: false").toList,
       [], [], []] := by
  obtain ⟨sync, ⟨u⟩, ⟨a⟩, ⟨g⟩⟩ := cmd
  have hu' : '\n' ∉ u := hu
  have ha' : '\n' ∉ a := ha
  have hg' : '\n' ∉ g := hg
  have h1 : '\n' ∉ "sendmsg ".toList ++ u := by
    simp only [List.mem_append, not_or]
    exact ⟨by decide, hu'⟩
  have h3 : '\n' ∉ "execute-app-name: ".toList ++ a := by
    simp only [List.mem_append, not_or]
    exact ⟨by decide, ha'⟩
  have h4 : '\n' ∉ "execute-app-arg: ".toList ++ g := by
    simp only [List.mem_append, not_or]
    exact ⟨by decide, hg'⟩
  cases sync
  · have e1 : (Command.Serialize { Sync := false, UId := ⟨u⟩, App := ⟨a⟩, Args := ⟨g⟩ }).toList =
        ("sendmsg ".toList ++ u) ++ '\n' ::
        ("call-command: execute".toList ++ '\n' ::
        (("execute-app-name: ".toList ++ a) ++ '\n' ::
        (("execute-app-arg: ".toList ++ g) ++ '\n' ::
        ("event-lock: false".toList ++ '\n' :: '\n' :: '\n' :: [])))) := by
      simp only [Command.Serialize, str_toList_append, List.append_assoc]
      rfl
    rw [e1, splitNL_line _ _ h1, splitNL_line _ _ (by decide), splitNL_line _ _ h3,
      splitNL_line _ _ h4, splitNL_line _ _ (by decide)]
    rfl
  · have e1 : (Command.Serialize { Sync := true, UId := ⟨u⟩, App := ⟨a⟩, Args := ⟨g⟩ }).toList =
        ("sendmsg ".toList ++ u) ++ '\n' ::
        ("call-command: execute".toList ++ '\n' ::
        (("execute-app-name: ".toList ++ a) ++ '\n' ::
        (("execute-app-arg: ".toList ++ g) ++ '\n' ::
        ("event-lock: true".toList ++ '\n' :: '\n' :: '\n' :: [])))) := by
      simp only [Command.Serialize, str_toList_append, List.append_assoc]
      rfl
    rw [e1, splitNL_line _ _ h1, splitNL_line _ _ (by decide), splitNL_line _ _ h3,
      splitNL_line _ _ h4, splitNL_line _ _ (by decide)]
    rfl

/-- C8 witness: the line decomposition of a concrete serialized command. -/
theorem c8_witness :
    splitNL ((Command.Serialize cmd0).toList) =
      [("sendmsg " ++ cmd0.UId).toList, "call-command: execute".toList,
       ("execute-app-name: " ++ cmd0.App).toList, ("execute-app-arg: " ++ cmd0.Args).toList,
       (if cmd0.Sync then "event-lock: true" else "event-lock: false").toList,
       [], [], []] :=
  c8_serialize_lines cmd0 (by decide) (by decide) (by decide)


end Esl
